import Mathlib

/-!
Verification of the distributed-coordination core of a redis-backed
socket.io adapter (src/index.js).  The adapter multiplexes namespaces and
rooms over a pub/sub bus, filters out its own broadcasts by node id,
keeps room-channel subscriptions in sync with local membership, and runs a
scatter-gather query for the cluster-wide client list.

The embedding below translates the source functions into pure Lean
functions.  Stateful methods (`add`, `del`, `delAll`) are modelled as
functions from an adapter state to a new state together with the list of
side-effecting actions they issue and the value handed to the optional
callback.  The external message-bus client is modelled by an environment
assigning a possible error to each subscribe/unsubscribe call; the local
membership store (socket.io-adapter, an external dependency) is modelled
from the spec's interface description where noted.
-/

/-- Errors surfaced by the bus client callbacks are treated as opaque strings. -/
abbrev JsError := String

/-- Result of coercing a possibly-undefined JS string to a string: JS string
concatenation renders `undefined` as the literal text "undefined". -/
def jsString : Option String → String
  | some s => s
  | none => "undefined"

/-- Channel for a whole namespace: `prefix + '#' + nsp.name + '#'`
(src/index.js line 77). -/
def nsChannel (pre nsp : String) : String := pre ++ "#" ++ nsp ++ "#"

/-- Channel for one room: the namespace channel plus `room + '#'`
(src/index.js lines 184/188 and 210). -/
def roomChannel (pre nsp room : String) : String := nsChannel pre nsp ++ room ++ "#"

/-- Response channel of one sync transaction:
`prefix + '-sync#response#' + transaction` (src/index.js lines 162 and 302). -/
def syncResponseChannel (pre transaction : String) : String :=
  pre ++ "-sync#response#" ++ transaction

/-- Request channel for cluster queries: `prefix + '-sync#request'`
(src/index.js line 78). -/
def syncRequestChannel (pre : String) : String := pre ++ "-sync#request"

/-- The channel filter `Redis.channelMatches` (src/index.js lines 80-88):
`messageChannel.startsWith(subscribedChannel)` (equivalently the
`substr(0, length)` fallback), i.e. the subscribed channel's character
sequence is an initial segment of the received channel's. -/
def channelMatches (messageChannel subscribedChannel : String) : Bool :=
  subscribedChannel.data.isPrefixOf messageChannel.data

/-- An emitted socket.io packet; only the namespace field (possibly absent,
i.e. `undefined`, in JS) and an opaque payload matter to the adapter. -/
structure Packet where
  nsp : Option String
  payload : String
deriving DecidableEq, Repr

/-- Broadcast options: `rooms` is either absent (`undefined`) or an array of
room names (possibly empty — note that in JS an empty array is truthy). -/
structure BroadcastOpts where
  rooms : Option (List String)
deriving DecidableEq, Repr

/-- The wire envelope `[uid, packet, opts]` produced by
`msgpack.encode([uid, packet, opts])` (src/index.js line 185). -/
structure Envelope where
  origin : String
  packet : Packet
  opts : BroadcastOpts
deriving DecidableEq, Repr

/-- Side effects issued by the adapter methods, in program order:
calls into the local membership store, bus subscribe/unsubscribe,
publishes, and `'error'` events emitted on the adapter. -/
inductive Effect where
  | localAdd (id room : String)
  | localRemove (id room : String)
  | localBroadcast (packet : Packet) (opts : BroadcastOpts)
  | subscribe (channel : String)
  | unsubscribe (channel : String)
  | publishEnvelope (channel : String) (env : Envelope)
  | emitError (e : JsError)
deriving DecidableEq, Repr

/-- Environment modelling the bus client: the error (if any) that a
subscribe or unsubscribe of a given channel reports to its callback. -/
structure Bus where
  subscribeErr : String → Option JsError
  unsubscribeErr : String → Option JsError

/-- A bus on which every subscribe and unsubscribe succeeds. -/
def okBus : Bus := ⟨fun _ => none, fun _ => none⟩

/-! Association lists keyed by strings, used for the per-session room
records of the local membership store. -/

/-- Lookup in a string-keyed association list. -/
def alookup (m : List (String × List String)) (k : String) : Option (List String) :=
  (m.find? (fun p => p.1 == k)).map (·.2)

/-- Set a key to a value, replacing any previous binding. -/
def aset (m : List (String × List String)) (k : String) (v : List String) :
    List (String × List String) :=
  (k, v) :: m.filter (fun p => p.1 != k)

/-- Delete a key. -/
def adel (m : List (String × List String)) (k : String) : List (String × List String) :=
  m.filter (fun p => p.1 != k)

/-- Insert a string into a duplicate-free list, modelling setting a key of a
JS object used as a set (`obj[x] = true`). -/
def insertStr (s : String) (l : List String) : List String :=
  if s ∈ l then l else s :: l

/-- Remove a string from a list, modelling `delete obj[x]`. -/
def removeStr (s : String) (l : List String) : List String :=
  l.filter (fun x => x != s)

/-- State of one namespace adapter: the local membership store's two maps
and the set of channels currently subscribed on the shared `sub`
connection.  `rooms r = []` models the absence of an entry for `r` (the
membership store deletes a room's entry when its last member leaves), so
`rooms.hasOwnProperty(room)` is modelled by `rooms room ≠ []`.  `sids` is
an association list because the store enumerates all known session ids. -/
@[ext]
structure AdapterState where
  rooms : String → List String
  sids : List (String × List String)
  subscribed : List String

/-- Room record of a session (`this.sids[id]`, defaulting to no rooms). -/
def roomsOf (st : AdapterState) (id : String) : List String :=
  (alookup st.sids id).getD []

/-- Modelled from the spec: `localAdd(sessionId, room)` of the local
membership store (socket.io-adapter's `Adapter.prototype.add`, an external
collaborator): record the session in the room and the room in the
session's record. -/
def localAdd (st : AdapterState) (id room : String) : AdapterState where
  rooms := fun r => if r = room then insertStr id (st.rooms r) else st.rooms r
  sids := aset st.sids id (insertStr room (roomsOf st id))
  subscribed := st.subscribed

/-- Modelled from the spec: `localRemove(sessionId, room)` of the local
membership store (socket.io-adapter's `Adapter.prototype.del`): remove the
session from the room (the room's entry disappears when it becomes empty)
and the room from the session's record (which is created empty if absent,
as in the JS store). -/
def localRemove (st : AdapterState) (id room : String) : AdapterState where
  rooms := fun r => if r = room then removeStr id (st.rooms r) else st.rooms r
  sids := aset st.sids id (removeStr room (roomsOf st id))
  subscribed := st.subscribed

/-- Modelled from the spec: `localMatchingClients(rooms)` of the local
membership store (socket.io-adapter's `Adapter.prototype.clients`): an
empty `rooms` list means all locally known clients; otherwise the ids that
are members of at least one of the given rooms, without duplicates. -/
def localMatchingClients (st : AdapterState) (roomList : List String) : List String :=
  if roomList.isEmpty then st.sids.map Prod.fst
  else ((roomList.map st.rooms).flatten).dedup

/-! Methods of the `Redis` adapter prototype. -/

namespace Redis

/-- The method `Redis.prototype.broadcast` (src/index.js lines 181-195):
apply the local broadcast, then, unless `remote` is set, publish the
msgpack envelope `[uid, packet, opts]` — once per room on the room
channels derived from `packet.nsp` when `opts.rooms` is an array (note
`if (opts.rooms)` is a JS truthiness test, so an *empty* array also takes
this branch and publishes nothing), and once on the namespace-wide channel
when `opts.rooms` is absent. -/
def broadcast (uid pre : String) (packet : Packet) (opts : BroadcastOpts)
    (remote : Bool) : List Effect :=
  Effect.localBroadcast packet opts ::
    (if remote then []
     else
       let env : Envelope := ⟨uid, packet, opts⟩
       match opts.rooms with
       | some rooms =>
           rooms.map (fun room =>
             Effect.publishEnvelope (roomChannel pre (jsString packet.nsp) room) env)
       | none => [Effect.publishEnvelope (nsChannel pre (jsString packet.nsp)) env])

/-- Outcome of `Redis.prototype.onmessage` on one received bus message. -/
inductive MsgOutcome where
  | ignoredChannel
  | ignoredSameUid
  | ignoredNamespace
  | broadcasted (actions : List Effect)
deriving DecidableEq, Repr

/-- The method `Redis.prototype.onmessage` (src/index.js lines 118-140),
with msgpack decoding of a well-formed message modelled as the identity on
the envelope: drop the message if the channel does not match this
namespace's channel, then if the envelope's origin uid equals this node's
uid; next an absent `packet.nsp` is defaulted to "/" (lines 129-131), the
message is dropped if the (defaulted) packet namespace differs from this
adapter's, and otherwise the mutated packet is replayed through
`broadcast` with the remote flag set. -/
def onmessage (uid pre nspName : String) (channel : String) (env : Envelope) :
    MsgOutcome :=
  if channelMatches channel (nsChannel pre nspName) then
    if env.origin = uid then MsgOutcome.ignoredSameUid
    else
      let packet : Packet := { env.packet with nsp := some (env.packet.nsp.getD "/") }
      if env.packet.nsp.getD "/" ≠ nspName then MsgOutcome.ignoredNamespace
      else MsgOutcome.broadcasted (broadcast uid pre packet env.opts true)
  else MsgOutcome.ignoredChannel

/-- A decoded cluster-query request `{transaction, rooms}`. -/
structure QueryRequest where
  transaction : String
  rooms : List String
deriving DecidableEq, Repr

/-- Outcome of `Redis.prototype.onclients` on one received sync message. -/
inductive ClientsOutcome where
  | uncaughtReferenceError
  | publishResponse (channel : String) (clients : List String)
deriving DecidableEq, Repr

/-- The method `Redis.prototype.onclients` (src/index.js lines 148-170),
parameterised by the result of `JSON.parse` on the payload.  On a decode
failure the catch block executes `self.emit('error', err)` — but the
identifier `self` is not declared in this function or in any enclosing
scope (the `var self = this` bindings of the other methods live in their
own function scopes), so the handler raises an uncaught `ReferenceError`
instead of emitting an error event.  On success it computes the local
matching clients and publishes them on the response channel of the
request's transaction. -/
def onclients (pre : String) (st : AdapterState) (decoded : Except JsError QueryRequest) :
    ClientsOutcome :=
  match decoded with
  | Except.error _ => ClientsOutcome.uncaughtReferenceError
  | Except.ok req =>
      ClientsOutcome.publishResponse (syncResponseChannel pre req.transaction)
        (localMatchingClients st req.rooms)

/-- The method `Redis.prototype.add` (src/index.js lines 206-219): local
join in the membership store first, then subscribe the room channel; a
subscribe error is emitted as an `'error'` event and passed to the
callback, otherwise the callback receives null. -/
def add (bus : Bus) (pre nsp : String) (st : AdapterState) (id room : String) :
    AdapterState × List Effect × Option JsError :=
  let st1 := localAdd st id room
  let ch := roomChannel pre nsp room
  match bus.subscribeErr ch with
  | some e => (st1, [Effect.localAdd id room, Effect.subscribe ch, Effect.emitError e], some e)
  | none =>
      ({ st1 with subscribed := insertStr ch st1.subscribed },
       [Effect.localAdd id room, Effect.subscribe ch], none)

/-- The method `Redis.prototype.del` (src/index.js lines 230-250):
`hasRoom` records whether the room existed before the local leave; after
the local leave, the room channel is unsubscribed exactly when the room
existed and its entry is now gone (became empty); otherwise the callback
is invoked with null and no bus I/O happens. -/
def del (bus : Bus) (pre nsp : String) (st : AdapterState) (id room : String) :
    AdapterState × List Effect × Option JsError :=
  let hasRoom := st.rooms room ≠ []
  let st1 := localRemove st id room
  if hasRoom ∧ st1.rooms room = [] then
    let ch := roomChannel pre nsp room
    match bus.unsubscribeErr ch with
    | some e =>
        (st1, [Effect.localRemove id room, Effect.unsubscribe ch, Effect.emitError e], some e)
    | none =>
        ({ st1 with subscribed := removeStr ch st1.subscribed },
         [Effect.localRemove id room, Effect.unsubscribe ch], none)
  else (st1, [Effect.localRemove id room], none)

/-- Sequentialisation of `async.forEach(Object.keys(rooms), del, ...)`
(src/index.js lines 271-273): every listed leave is applied (the fan-out
starts all of them even when one fails), the actions are concatenated, and
the error handed to the final callback is the first one reported. -/
def delList (bus : Bus) (pre nsp : String) (st : AdapterState) (id : String) :
    List String → AdapterState × List Effect × Option JsError
  | [] => (st, [], none)
  | r :: rs =>
      let x := del bus pre nsp st id r
      let y := delList bus pre nsp x.1 id rs
      (y.1, x.2.1 ++ y.2.1, x.2.2 <|> y.2.2)

/-- The method `Redis.prototype.delAll` (src/index.js lines 260-282): if
the session has no room record the callback fires with null and nothing
changes; otherwise every room in the record is left via `del`; on an error
the error is emitted and handed to the callback — and the function returns
*without* deleting the session's record; only when every leave succeeded
is `this.sids[id]` deleted and the callback given null. -/
def delAll (bus : Bus) (pre nsp : String) (st : AdapterState) (id : String) :
    AdapterState × List Effect × Option JsError :=
  match alookup st.sids id with
  | none => (st, [], none)
  | some rl =>
      let x := delList bus pre nsp st id rl
      match x.2.2 with
      | some e => (x.1, x.2.1 ++ [Effect.emitError e], some e)
      | none => ({ x.1 with sids := adel x.1.sids id }, x.2.1, none)

end Redis

/-- Joins and leaves, the operations of the subscription-lifecycle state
machine of one namespace adapter. -/
inductive Op where
  | add (id room : String)
  | del (id room : String)

/-- Apply one operation on a fault-free bus, keeping only the state. -/
def applyOp (pre nsp : String) (st : AdapterState) : Op → AdapterState
  | Op.add id room => (Redis.add okBus pre nsp st id room).1
  | Op.del id room => (Redis.del okBus pre nsp st id room).1

/-- Run a sequence of joins and leaves from a state. -/
def runOps (pre nsp : String) (ops : List Op) (st : AdapterState) : AdapterState :=
  ops.foldl (applyOp pre nsp) st

/-- State of a fresh adapter: empty membership store, and the namespace
channel subscribed by the constructor (src/index.js line 94). -/
def initState (pre nsp : String) : AdapterState where
  rooms := fun _ => []
  sids := []
  subscribed := [nsChannel pre nsp]

/-- The channels of the publish actions in a list of actions. -/
def publishChannels (acts : List Effect) : List String :=
  acts.filterMap (fun a =>
    match a with
    | Effect.publishEnvelope ch _ => some ch
    | _ => none)

/-- The publish actions in a list of actions, as channel/envelope pairs. -/
def publishList (acts : List Effect) : List (String × Envelope) :=
  acts.filterMap (fun a =>
    match a with
    | Effect.publishEnvelope ch env => some (ch, env)
    | _ => none)

/-- One observable event inside a running cluster query
(`Redis.prototype.clients`): a response arriving on the ephemeral
connection, or the 5-second deadline firing. -/
inductive QEvent where
  | response (clients : List String)
  | timeout

/-- State of one in-flight cluster query after the request has been
published and the deadline timer armed (src/index.js lines 314-343):
the received-response count and accumulated client lists, whether the
deadline timer is still armed, whether the ephemeral `clientsSub`
connection has been unsubscribed and quit, and the list of results the
caller's callback has been invoked with so far. -/
structure QState where
  msgCount : Nat
  clients : List String
  timerActive : Bool
  connReleased : Bool
  delivered : List (List String)

/-- Query state right after the request is published: nothing received,
timer armed, ephemeral connection open, callback not yet invoked. -/
def qinit : QState where
  msgCount := 0
  clients := []
  timerActive := true
  connReleased := false
  delivered := []

/-- One step of the cluster-query coordinator (src/index.js lines 324-340).
The timeout handler (lines 325-328) fires only while the timer is armed; it
warns and invokes the callback with the accumulated (partial) list — it
does not unsubscribe or quit `clientsSub` and does not detach the message
listener.  The response handler (lines 330-340) is only reached while the
ephemeral connection is open; it appends the response's clients and
increments the count, and when the count reaches `numsub` (the subscriber
count read from the bus, compared with JS loose equality, i.e.
numerically) it clears the timer, unsubscribes and quits the ephemeral
connection, and invokes the callback with the accumulated list. -/
def qstep (numsub : Nat) (s : QState) : QEvent → QState
  | QEvent.timeout =>
      if s.timerActive then
        { s with timerActive := false, delivered := s.delivered ++ [s.clients] }
      else s
  | QEvent.response cs =>
      if s.connReleased then s
      else
        let clients := s.clients ++ cs
        let m := s.msgCount + 1
        if m = numsub then
          { msgCount := m, clients := clients, timerActive := false,
            connReleased := true, delivered := s.delivered ++ [clients] }
        else
          { s with msgCount := m, clients := clients }

/-- Run one cluster query over a sequence of events. -/
def qrun (numsub : Nat) (events : List QEvent) : QState :=
  events.foldl (qstep numsub) qinit

/-- A state with one session "s1" whose only room is "r1" (so leaving "r1"
empties the room and triggers an unsubscribe of its channel). -/
def oneRoomState : AdapterState where
  rooms := fun r => if r = "r1" then ["s1"] else []
  sids := [("s1", ["r1"])]
  subscribed := [nsChannel "socket.io" "/", roomChannel "socket.io" "/" "r1"]

/-- A bus on which unsubscribing room "r1"'s channel fails. -/
def errBus : Bus where
  subscribeErr := fun _ => none
  unsubscribeErr := fun ch =>
    if ch = roomChannel "socket.io" "/" "r1" then some "ECONNRESET" else none

/-! Helper lemmas: association lists, set-like list operations, channel
strings. -/

theorem find?_filter_self (m : List (String × List String)) (k : String) :
    (m.filter (fun p => p.1 != k)).find? (fun p => p.1 == k) = none := by
  induction m with
  | nil => rfl
  | cons a t ih =>
      by_cases h : a.1 = k
      · simp [List.filter_cons, h, ih]
      · simp [List.filter_cons, h, List.find?_cons, ih]

theorem find?_filter_ne (m : List (String × List String)) (k k' : String) (h : k' ≠ k) :
    (m.filter (fun p => p.1 != k)).find? (fun p => p.1 == k')
      = m.find? (fun p => p.1 == k') := by
  induction m with
  | nil => rfl
  | cons a t ih =>
      by_cases h1 : a.1 = k
      · have h3 : (k == k') = false := by simpa using fun e => h e.symm
        simp [List.filter_cons, h1, List.find?_cons, h3, ih]
      · simp only [List.filter_cons, bne_iff_ne, ne_eq, h1, not_false_eq_true, if_pos,
          ite_true]
        by_cases h2 : a.1 = k'
        · simp [List.find?_cons, h2]
        · simp [List.find?_cons, h2, ih]

theorem alookup_aset_self (m : List (String × List String)) (k : String) (v : List String) :
    alookup (aset m k v) k = some v := by
  simp [alookup, aset, List.find?_cons]

theorem alookup_aset_ne (m : List (String × List String)) (k k' : String) (v : List String)
    (h : k' ≠ k) : alookup (aset m k v) k' = alookup m k' := by
  have h2 : (k == k') = false := by simpa using fun e => h e.symm
  simp [alookup, aset, List.find?_cons, h2, find?_filter_ne m k k' h]

theorem alookup_adel_self (m : List (String × List String)) (k : String) :
    alookup (adel m k) k = none := by
  simp [alookup, adel, find?_filter_self]

theorem alookup_adel_ne (m : List (String × List String)) (k k' : String) (h : k' ≠ k) :
    alookup (adel m k) k' = alookup m k' := by
  simp [alookup, adel, find?_filter_ne m k k' h]

theorem aset_aset (m : List (String × List String)) (k : String) (v w : List String) :
    aset (aset m k v) k w = aset m k w := by
  simp [aset, List.filter_cons, List.filter_filter]

theorem mem_insertStr {a b : String} {l : List String} :
    a ∈ insertStr b l ↔ a = b ∨ a ∈ l := by
  unfold insertStr
  split
  · next h => exact ⟨Or.inr, fun x => x.elim (fun e => e ▸ h) id⟩
  · simp [List.mem_cons]

theorem self_mem_insertStr (a : String) (l : List String) : a ∈ insertStr a l :=
  mem_insertStr.mpr (Or.inl rfl)

theorem insertStr_ne_nil (a : String) (l : List String) : insertStr a l ≠ [] := by
  unfold insertStr
  split
  · next h => exact fun e => by simp [e] at h
  · simp

theorem insertStr_of_mem {a : String} {l : List String} (h : a ∈ l) : insertStr a l = l := by
  simp [insertStr, h]

theorem insertStr_idem (a : String) (l : List String) :
    insertStr a (insertStr a l) = insertStr a l :=
  insertStr_of_mem (self_mem_insertStr a l)

theorem mem_removeStr {a b : String} {l : List String} :
    a ∈ removeStr b l ↔ a ∈ l ∧ a ≠ b := by
  simp [removeStr, List.mem_filter]

theorem removeStr_of_not_mem {a : String} {l : List String} (h : a ∉ l) :
    removeStr a l = l := by
  rw [removeStr, List.filter_eq_self]
  intro x hx
  simp
  exact fun e => h (e ▸ hx)

theorem not_mem_removeStr (a : String) (l : List String) : a ∉ removeStr a l := by
  simp [mem_removeStr]

theorem string_ext {s t : String} (h : s.data = t.data) : s = t := by
  cases s; cases t; exact congrArg String.mk h

theorem roomChannel_data (pre nsp room : String) :
    (roomChannel pre nsp room).data = (nsChannel pre nsp).data ++ (room.data ++ ['#']) := by
  simp [roomChannel, String.data_append]

theorem nsChannel_prefix_roomChannel (pre nsp room : String) :
    (nsChannel pre nsp).data <+: (roomChannel pre nsp room).data := by
  rw [roomChannel_data]
  exact List.prefix_append _ _

theorem nsChannel_ne_roomChannel (pre nsp room : String) :
    nsChannel pre nsp ≠ roomChannel pre nsp room := by
  intro h
  have h2 := congrArg (fun s => s.data.length) h
  simp [roomChannel, String.data_append] at h2

theorem roomChannel_inj {pre nsp r r' : String}
    (h : roomChannel pre nsp r = roomChannel pre nsp r') : r = r' := by
  have h2 := congrArg String.data h
  rw [roomChannel_data, roomChannel_data] at h2
  exact string_ext (List.append_cancel_right (List.append_cancel_left h2))

theorem publishList_map_publishEnvelope (c : String → String) (e : Envelope)
    (l : List String) :
    publishList (l.map (fun room => Effect.publishEnvelope (c room) e))
      = l.map (fun room => (c room, e)) := by
  induction l with
  | nil => rfl
  | cons r t ih => simp [publishList, List.filterMap_cons] at ih ⊢; exact ih

/-- C5: for every namespace and room, the namespace-level channel string is a
strict prefix of the room-level channel string built for that namespace, and
`channelMatches received sub` returns true iff `received` starts with `sub`
(its characters extend `sub`'s); together these make every room-channel
message pass the namespace-channel filter. -/
theorem channel_prefix_relation :
    (∀ pre nsp room : String,
        (nsChannel pre nsp).data <+: (roomChannel pre nsp room).data ∧
          nsChannel pre nsp ≠ roomChannel pre nsp room) ∧
    (∀ received sub : String,
        channelMatches received sub = true ↔ sub.data <+: received.data) ∧
    (∀ pre nsp room : String,
        channelMatches (roomChannel pre nsp room) (nsChannel pre nsp) = true) := by
  refine ⟨fun pre nsp room => ⟨nsChannel_prefix_roomChannel pre nsp room,
      nsChannel_ne_roomChannel pre nsp room⟩,
    fun received sub => ?_, fun pre nsp room => ?_⟩
  · unfold channelMatches
    exact List.isPrefixOf_iff_prefix
  · unfold channelMatches
    exact ( List.isPrefixOf_iff_prefix).mpr (nsChannel_prefix_roomChannel pre nsp room)

/-- C1: an envelope whose origin node id equals the receiving process's own
uid is discarded by `onmessage` unprocessed — the outcome is one of the two
early returns and the local broadcast path is never invoked for it. -/
theorem self_filtering (uid pre nspName channel : String) (env : Envelope)
    (h : env.origin = uid) :
    Redis.onmessage uid pre nspName channel env = Redis.MsgOutcome.ignoredChannel ∨
      Redis.onmessage uid pre nspName channel env = Redis.MsgOutcome.ignoredSameUid := by
  unfold Redis.onmessage
  split
  · right
    simp [h]
  · left
    rfl

theorem self_filtering_witness :
    Redis.onmessage "u1" "socket.io" "/" (nsChannel "socket.io" "/")
        ⟨"u1", ⟨some "/", "hello"⟩, ⟨none⟩⟩ = Redis.MsgOutcome.ignoredChannel ∨
      Redis.onmessage "u1" "socket.io" "/" (nsChannel "socket.io" "/")
        ⟨"u1", ⟨some "/", "hello"⟩, ⟨none⟩⟩ = Redis.MsgOutcome.ignoredSameUid :=
  self_filtering "u1" "socket.io" "/" (nsChannel "socket.io" "/")
    ⟨"u1", ⟨some "/", "hello"⟩, ⟨none⟩⟩ rfl

/-- C2 counterexample: a non-remote broadcast whose `opts.rooms` is an empty
array publishes nothing at all — not once on the namespace-wide channel as
the claim states — because `if (opts.rooms)` is a truthiness test and an
empty JS array is truthy. -/
theorem broadcast_empty_rooms_counterexample :
    publishChannels
        (Redis.broadcast "u1" "socket.io" ⟨some "/", "hello"⟩ ⟨some []⟩ false) = [] ∧
      (publishChannels
          (Redis.broadcast "u1" "socket.io" ⟨some "/", "hello"⟩ ⟨some []⟩ false)).count
          (nsChannel "socket.io" "/") ≠ 1 := by
  constructor
  · rfl
  · decide

/-- C2 amended: for every `broadcast(packet, opts, remote)` call the local
broadcast is applied first; when `remote` is set nothing is published; when
`remote` is not set the tagged envelope `[uid, packet, opts]` is published
once per listed room on that room's channel when `opts.rooms` is present (so
an empty rooms array publishes nothing), and exactly once on the
namespace-wide channel only when `opts.rooms` is absent. -/
theorem broadcast_fanout (uid pre : String) (packet : Packet) (opts : BroadcastOpts) :
    ((Redis.broadcast uid pre packet opts false).head? =
        some (Effect.localBroadcast packet opts) ∧
      (Redis.broadcast uid pre packet opts true).head? =
        some (Effect.localBroadcast packet opts)) ∧
    publishList (Redis.broadcast uid pre packet opts true) = [] ∧
    publishList (Redis.broadcast uid pre packet opts false) =
      (match opts.rooms with
       | some rooms => rooms.map (fun room =>
           (roomChannel pre (jsString packet.nsp) room,
            (⟨uid, packet, opts⟩ : Envelope)))
       | none => [(nsChannel pre (jsString packet.nsp),
            (⟨uid, packet, opts⟩ : Envelope))]) := by
  obtain ⟨r⟩ := opts
  cases r with
  | none => simp [Redis.broadcast, publishList, List.filterMap_cons]
  | some l =>
      refine ⟨⟨rfl, rfl⟩, rfl, ?_⟩
      simp only [Redis.broadcast, publishList, List.filterMap_cons]
      exact publishList_map_publishEnvelope _ _ l

/-- C10: the channels of a non-remote broadcast are derived from the
packet's own `nsp` field (`prefix + '#' + packet.nsp + '#'` plus the room
suffix), not from the adapter instance's namespace — `broadcast` never
consults the instance's namespace, so every publish channel extends the
namespace channel built from `packet.nsp`, and a packet whose nsp is
"/other" is published on "/other"'s channel even from the "/" adapter. -/
theorem broadcast_channel_from_packet_nsp :
    (∀ (uid pre : String) (packet : Packet) (opts : BroadcastOpts) (ch : String),
        ch ∈ publishChannels (Redis.broadcast uid pre packet opts false) →
          (nsChannel pre (jsString packet.nsp)).data <+: ch.data) ∧
    (publishChannels
          (Redis.broadcast "u1" "socket.io" ⟨some "/other", "hello"⟩ ⟨none⟩ false) =
        [nsChannel "socket.io" "/other"] ∧
      nsChannel "socket.io" "/other" ≠ nsChannel "socket.io" "/") := by
  constructor
  · intro uid pre packet opts ch hch
    rcases opts with ⟨_ | l⟩
    · simp [Redis.broadcast, publishChannels, List.filterMap_cons] at hch
      subst hch
      exact List.prefix_refl _
    · simp [Redis.broadcast, publishChannels, List.filterMap_cons,
        List.filterMap_map] at hch
      obtain ⟨room, _, rfl⟩ := hch
      exact nsChannel_prefix_roomChannel pre (jsString packet.nsp) room
  · exact ⟨rfl, by decide⟩

theorem broadcast_channel_from_packet_nsp_witness :
    (nsChannel "socket.io" "/a").data <+: (roomChannel "socket.io" "/a" "r1").data :=
  broadcast_channel_from_packet_nsp.1 "u1" "socket.io" ⟨some "/a", "x"⟩ ⟨some ["r1"]⟩
    (roomChannel "socket.io" "/a" "r1") (by decide)

/-- C6 (code bug): on a malformed payload on the query-request channel,
`onclients` does not emit an error event and return — the catch block's
`self.emit` references the undeclared identifier `self`, so the handler
raises an uncaught ReferenceError (and indeed publishes no response). -/
theorem onclients_decode_failure_raises :
    Redis.onclients "socket.io" (initState "socket.io" "/")
        (Except.error "SyntaxError: Unexpected token") =
      Redis.ClientsOutcome.uncaughtReferenceError := rfl

/-- C7: for every well-formed request `{transaction, rooms}` received on the
query-request channel, `onclients` computes the local matching clients for
those rooms via the local membership store — an empty rooms list meaning all
locally known clients, a non-empty one the sessions in at least one of the
rooms — and publishes them on the response channel derived from that
request's transaction id. -/
theorem query_responder (pre : String) (st : AdapterState) (t : String)
    (rl : List String) :
    (Redis.onclients pre st (Except.ok ⟨t, rl⟩) =
        Redis.ClientsOutcome.publishResponse (syncResponseChannel pre t)
          (localMatchingClients st rl)) ∧
    localMatchingClients st [] = st.sids.map Prod.fst ∧
    (rl ≠ [] → ∀ id, id ∈ localMatchingClients st rl ↔ ∃ r ∈ rl, id ∈ st.rooms r) := by
  refine ⟨rfl, rfl, fun hne id => ?_⟩
  unfold localMatchingClients
  rw [if_neg (by simpa [List.isEmpty_iff] using hne)]
  simp [List.mem_dedup, List.mem_flatten, List.mem_map]

theorem query_responder_witness :
    "s1" ∈ localMatchingClients (localAdd (initState "socket.io" "/") "s1" "r1") ["r1"] ↔
      ∃ r ∈ ["r1"], "s1" ∈ (localAdd (initState "socket.io" "/") "s1" "r1").rooms r :=
  (query_responder "socket.io" (localAdd (initState "socket.io" "/") "s1" "r1") "t1"
    ["r1"]).2.2 (by decide) "s1"

/-- C3 (code bug): in the cluster-query coordinator, the count-reached path
does cancel the timer, release the ephemeral connection and deliver the
accumulated list, and the timeout path does deliver the partial list at the
deadline (no hang) — but on the timeout path the ephemeral connection is
never unsubscribed or quit, so it is not released on that exit path. -/
theorem clients_completion_and_timeout_leak :
    ((qrun 2 [QEvent.response ["s1"], QEvent.timeout]).delivered = [["s1"]] ∧
      (qrun 2 [QEvent.response ["s1"], QEvent.timeout]).timerActive = false ∧
      (qrun 2 [QEvent.response ["s1"], QEvent.timeout]).connReleased = false) ∧
    ((qrun 2 [QEvent.response ["s1"], QEvent.response ["s2"]]).delivered =
        [["s1", "s2"]] ∧
      (qrun 2 [QEvent.response ["s1"], QEvent.response ["s2"]]).timerActive = false ∧
      (qrun 2 [QEvent.response ["s1"], QEvent.response ["s2"]]).connReleased = true) := by
  decide

theorem localAdd_idem (st : AdapterState) (id room : String) :
    localAdd (localAdd st id room) id room = localAdd st id room := by
  refine AdapterState.ext ?_ ?_ ?_
  · funext r
    by_cases h : r = room <;> simp [localAdd, h, insertStr_idem]
  · simp [localAdd, roomsOf, alookup_aset_self, insertStr_idem, aset_aset]
  · rfl

theorem localAdd_subscribed (st : AdapterState) (X : List String) (id room : String) :
    localAdd { st with subscribed := X } id room
      = { localAdd st id room with subscribed := X } := rfl

theorem add_state_idem (bus : Bus) (pre nsp : String) (st : AdapterState)
    (id room : String) :
    (Redis.add bus pre nsp (Redis.add bus pre nsp st id room).1 id room).1
      = (Redis.add bus pre nsp st id room).1 := by
  unfold Redis.add
  cases h : bus.subscribeErr (roomChannel pre nsp room) with
  | some e => simp [h, localAdd_idem]
  | none =>
      simp only [h]
      rw [show (localAdd st id room).subscribed = st.subscribed from rfl,
        localAdd_subscribed]
      simp [localAdd_idem, insertStr_idem]

/-- C8: adding the same (session, room) pair twice leaves the state (local
membership and subscription set) identical to adding it once; deleting a
pair that is not currently joined is a no-op that completes successfully —
the callback gets null, the only effect is the membership-store call (no
bus I/O), and neither the membership view nor the subscription set changes;
and `del` issues an unsubscribe for the room channel iff the room becomes
empty as a result of the leave. -/
theorem join_leave_idempotence (bus : Bus) (pre nsp : String) (st : AdapterState)
    (id room : String) :
    (Redis.add bus pre nsp (Redis.add bus pre nsp st id room).1 id room).1
        = (Redis.add bus pre nsp st id room).1 ∧
    (id ∉ st.rooms room → room ∉ roomsOf st id →
      ((Redis.del bus pre nsp st id room).2 = ([Effect.localRemove id room], none) ∧
        (∀ r, (Redis.del bus pre nsp st id room).1.rooms r = st.rooms r) ∧
        (∀ s, roomsOf (Redis.del bus pre nsp st id room).1 s = roomsOf st s) ∧
        (Redis.del bus pre nsp st id room).1.subscribed = st.subscribed)) ∧
    (Effect.unsubscribe (roomChannel pre nsp room) ∈
          (Redis.del bus pre nsp st id room).2.1 ↔
        (st.rooms room ≠ [] ∧ (Redis.del bus pre nsp st id room).1.rooms room = [])) := by
  refine ⟨add_state_idem bus pre nsp st id room, ?_, ?_⟩
  · intro h1 h2
    have hrm : removeStr id (st.rooms room) = st.rooms room := removeStr_of_not_mem h1
    have hc : ¬ (st.rooms room ≠ [] ∧ removeStr id (st.rooms room) = []) := by
      rw [hrm]
      exact fun h => h.1 h.2
    refine ⟨?_, ?_, ?_, ?_⟩
    · simp [Redis.del, localRemove, hc]
    · intro r
      by_cases hr : r = room <;> simp [Redis.del, localRemove, hc, hr, hrm]
    · intro s
      by_cases hs : s = id
      · subst hs
        simp [Redis.del, localRemove, hc, roomsOf, alookup_aset_self]
        exact removeStr_of_not_mem (by simpa [roomsOf] using h2)
      · have ha := alookup_aset_ne st.sids id s
          (removeStr room ((alookup st.sids id).getD [])) hs
        simp [Redis.del, localRemove, hc, roomsOf, ha]
    · simp [Redis.del, localRemove, hc]
  · by_cases hc : st.rooms room ≠ [] ∧ removeStr id (st.rooms room) = []
    · cases h : bus.unsubscribeErr (roomChannel pre nsp room) <;>
        simp [Redis.del, localRemove, hc.1, hc.2, h]
    · simp [Redis.del, localRemove, hc]

theorem join_leave_idempotence_witness :
    (Redis.del okBus "socket.io" "/" (initState "socket.io" "/") "s1" "r1").2
        = ([Effect.localRemove "s1" "r1"], none) ∧
      (Redis.del okBus "socket.io" "/" (initState "socket.io" "/") "s1" "r1").1.rooms "r1"
        = (initState "socket.io" "/").rooms "r1" := by
  have h := (join_leave_idempotence okBus "socket.io" "/" (initState "socket.io" "/")
      "s1" "r1").2.1 (by decide) (by decide)
  exact ⟨h.1, h.2.1 "r1"⟩

theorem add_inv (pre nsp : String) (st : AdapterState) (id room : String)
    (hInv : ∀ r, roomChannel pre nsp r ∈ st.subscribed ↔ st.rooms r ≠ []) :
    ∀ r, roomChannel pre nsp r ∈ (Redis.add okBus pre nsp st id room).1.subscribed ↔
      (Redis.add okBus pre nsp st id room).1.rooms r ≠ [] := by
  intro r
  by_cases hr : r = room
  · subst hr
    simp [Redis.add, okBus, localAdd, self_mem_insertStr, insertStr_ne_nil]
  · have hch : roomChannel pre nsp r ≠ roomChannel pre nsp room :=
      fun e => hr (roomChannel_inj e)
    simp [Redis.add, okBus, localAdd, mem_insertStr, hch, hr, hInv r]

theorem del_inv (pre nsp : String) (st : AdapterState) (id room : String)
    (hInv : ∀ r, roomChannel pre nsp r ∈ st.subscribed ↔ st.rooms r ≠ []) :
    ∀ r, roomChannel pre nsp r ∈ (Redis.del okBus pre nsp st id room).1.subscribed ↔
      (Redis.del okBus pre nsp st id room).1.rooms r ≠ [] := by
  intro r
  unfold Redis.del
  simp only [okBus]
  split
  · next hcond =>
      have hc2 : removeStr id (st.rooms room) = [] := by
        simpa [localRemove] using hcond.2
      by_cases hr : r = room
      · subst hr
        simp [okBus, localRemove, mem_removeStr, hc2]
      · have hch : roomChannel pre nsp r ≠ roomChannel pre nsp room :=
          fun e => hr (roomChannel_inj e)
        simp [okBus, localRemove, mem_removeStr, hch, hr, hInv r]
  · next hcond =>
      by_cases hr : r = room
      · subst hr
        have hc2 : ¬ (st.rooms r ≠ [] ∧ removeStr id (st.rooms r) = []) := by
          simpa [localRemove] using hcond
        rcases not_and_or.mp hc2 with hemp | hne
        · have hempty : st.rooms r = [] := not_not.mp hemp
          simp [localRemove, hempty, removeStr, hInv r]
        · have hnonempty : st.rooms r ≠ [] := by
            intro e
            exact hne (by simp [e, removeStr])
          simp [localRemove, hne, hInv r, hnonempty]
      · simp [localRemove, hr, hInv r]

/-- C4: for all reachable sequences of join (`add`) and leave (`del`)
operations from a fresh adapter, a room's bus channel is subscribed iff
that room has at least one local member on this node; and every join first
performs the local membership mutation and then issues the subscribe of
the room channel (so in particular the first local member's join issues
the subscribe). -/
theorem subscription_lifecycle (pre nsp : String) :
    (∀ (ops : List Op) (room : String),
        roomChannel pre nsp room ∈ (runOps pre nsp ops (initState pre nsp)).subscribed ↔
          (runOps pre nsp ops (initState pre nsp)).rooms room ≠ []) ∧
    (∀ (bus : Bus) (st : AdapterState) (id room : String),
        (Redis.add bus pre nsp st id room).2.1.take 2 =
          [Effect.localAdd id room, Effect.subscribe (roomChannel pre nsp room)]) := by
  constructor
  · have main : ∀ (ops : List Op) (st : AdapterState),
        (∀ r, roomChannel pre nsp r ∈ st.subscribed ↔ st.rooms r ≠ []) →
          ∀ r, roomChannel pre nsp r ∈ (runOps pre nsp ops st).subscribed ↔
            (runOps pre nsp ops st).rooms r ≠ [] := by
      intro ops
      induction ops with
      | nil =>
          intro st h r
          simpa [runOps] using h r
      | cons op t ih =>
          intro st h r
          have hstep : runOps pre nsp (op :: t) st
              = runOps pre nsp t (applyOp pre nsp st op) := by
            simp [runOps]
          rw [hstep]
          refine ih _ ?_ r
          cases op with
          | add id room => exact add_inv pre nsp st id room h
          | del id room => exact del_inv pre nsp st id room h
    intro ops room
    refine main ops _ ?_ room
    intro r
    simp [initState]
    exact fun e => (nsChannel_ne_roomChannel pre nsp r e.symm).elim
  · intro bus st id room
    cases h : bus.subscribeErr (roomChannel pre nsp room) <;> simp [Redis.add, h]

theorem del_actions_localRemove (bus : Bus) (pre nsp : String) (st : AdapterState)
    (id room : String) :
    Effect.localRemove id room ∈ (Redis.del bus pre nsp st id room).2.1 := by
  unfold Redis.del
  dsimp only
  split
  · cases bus.unsubscribeErr (roomChannel pre nsp room) <;> simp
  · simp

theorem del_sids (bus : Bus) (pre nsp : String) (st : AdapterState) (id room : String) :
    (Redis.del bus pre nsp st id room).1.sids
      = aset st.sids id (removeStr room (roomsOf st id)) := by
  unfold Redis.del
  dsimp only
  split
  · cases bus.unsubscribeErr (roomChannel pre nsp room) <;> rfl
  · rfl

theorem delList_actions (bus : Bus) (pre nsp id : String) :
    ∀ (rl : List String) (st : AdapterState) (room : String), room ∈ rl →
      Effect.localRemove id room ∈ (Redis.delList bus pre nsp st id rl).2.1 := by
  intro rl
  induction rl with
  | nil =>
      intro st room h
      cases h
  | cons a t ih =>
      intro st room h
      unfold Redis.delList
      rcases List.mem_cons.mp h with rfl | h2
      · exact List.mem_append_left _ (del_actions_localRemove bus pre nsp st id room)
      · exact List.mem_append_right _ (ih _ room h2)

theorem delList_sids_some (bus : Bus) (pre nsp id : String) :
    ∀ (rl : List String) (st : AdapterState),
      (∃ v, alookup st.sids id = some v) →
        ∃ v, alookup (Redis.delList bus pre nsp st id rl).1.sids id = some v := by
  intro rl
  induction rl with
  | nil =>
      intro st h
      simpa [Redis.delList] using h
  | cons a t ih =>
      intro st h
      unfold Redis.delList
      refine ih _ ?_
      rw [del_sids]
      exact ⟨_, alookup_aset_self _ _ _⟩

/-- C9 amended: for every session id, `delAll` applies `del` for each room
the session currently belongs to (every leave is attempted even when some
fail), surfaces the first error through the callback and as an emitted
error event, and — only when no leave reported an error — removes the
session's room-set record; when a leave errs the record is retained (the
record's removal happens iff the callback reports success); for a session
with no recorded rooms it completes successfully with no state change. -/
theorem delAll_leave_all (bus : Bus) (pre nsp : String) (st : AdapterState)
    (id : String) :
    (alookup st.sids id = none → Redis.delAll bus pre nsp st id = (st, [], none)) ∧
    (∀ rl, alookup st.sids id = some rl →
      (∀ room ∈ rl,
          Effect.localRemove id room ∈ (Redis.delAll bus pre nsp st id).2.1) ∧
      (∀ e, (Redis.delAll bus pre nsp st id).2.2 = some e →
          Effect.emitError e ∈ (Redis.delAll bus pre nsp st id).2.1) ∧
      ((Redis.delAll bus pre nsp st id).2.2 = none ↔
          alookup (Redis.delAll bus pre nsp st id).1.sids id = none)) := by
  constructor
  · intro h
    simp [Redis.delAll, h]
  · intro rl h
    simp only [Redis.delAll, h]
    cases he : (Redis.delList bus pre nsp st id rl).2.2 with
    | some e0 =>
        simp only [he]
        refine ⟨?_, ?_, ?_⟩
        · intro room hic
          exact List.mem_append_left _ (delList_actions bus pre nsp id rl st room hic)
        · intro e hee
          have he2 : e = e0 := by simpa using hee.symm
          subst he2
          exact List.mem_append_right _ (by simp)
        · have ⟨v, hv⟩ := delList_sids_some bus pre nsp id rl st ⟨rl, h⟩
          simp [hv]
    | none =>
        simp only [he]
        refine ⟨?_, ?_, ?_⟩
        · intro room hic
          exact delList_actions bus pre nsp id rl st room hic
        · intro e hee
          simp at hee
        · simp [alookup_adel_self]

theorem delAll_leave_all_witness :
    Effect.localRemove "s1" "r1" ∈
      (Redis.delAll okBus "socket.io" "/" oneRoomState "s1").2.1 :=
  ((delAll_leave_all okBus "socket.io" "/" oneRoomState "s1").2 ["r1"] (by decide)).1
    "r1" (by decide)

/-- C9 counterexample: when the only room's unsubscribe fails, `delAll`
surfaces the error but leaves the session's room-set record in place
(`this.sids[id]` still has a — now empty — record), contradicting the
claim that the record is removed once all per-room completions return. -/
theorem delAll_error_keeps_record :
    (Redis.delAll errBus "socket.io" "/" oneRoomState "s1").2.2 = some "ECONNRESET" ∧
      alookup (Redis.delAll errBus "socket.io" "/" oneRoomState "s1").1.sids "s1"
        = some [] := by decide
